import Mathlib

/-!
Shallow embedding of the `filter-build` repository's core
(`src/core/python/dynamic_filter_core/parser.py`,
`src/core/python/dynamic_filter_core/validation.py`) and of the
Django/SQLAlchemy condition and context adapters
(`src/adapters/python/...`), together with proofs of the frozen claims.

Strings are embedded as `List Char`; Python's fallible operations return
`Except`; Python dictionaries keyed by strings become association lists or
lookup functions.
-/

set_option maxRecDepth 4000

/-- Decidable equality of `Except` values, so that concrete runs of the
embedded fallible operations can be checked by `decide`. -/
instance {ε α : Type} [DecidableEq ε] [DecidableEq α] : DecidableEq (Except ε α) := fun x y =>
  match x, y with
  | .ok a, .ok b =>
    if h : a = b then .isTrue (by rw [h]) else .isFalse (fun hc => h (Except.ok.inj hc))
  | .ok _, .error _ => .isFalse (fun hc => Except.noConfusion hc)
  | .error _, .ok _ => .isFalse (fun hc => Except.noConfusion hc)
  | .error e, .error f =>
    if h : e = f then .isTrue (by rw [h]) else .isFalse (fun hc => h (Except.error.inj hc))

namespace DynFilter

/-- Embedding of Python's `str.isspace` on a single character, exact for all
code points below 256 (the Unicode white-space property is fixed there:
U+0009..U+000D, U+001C..U+001F, U+0020, U+0085, U+00A0).  Code points at or
above 256 are mapped to `false`; every theorem whose truth depends on the
classification of such characters carries an explicit bound. -/
def pyIsSpace (c : Char) : Bool :=
  let n := c.toNat
  (9 ≤ n && n ≤ 13) || (28 ≤ n && n ≤ 32) || n == 133 || n == 160

/-- Embedding of Python's `str.isalnum` on a single character, exact for all
code points below 256 (ASCII letters and digits, plus the Latin-1 alphanumerics
ª ² ³ µ ¹ º ¼ ½ ¾ À..Ö Ø..ö ø..ÿ).  Code points at or above 256 are mapped to
`false`; every theorem whose truth depends on the classification of such
characters carries an explicit bound. -/
def pyIsAlnum (c : Char) : Bool :=
  let n := c.toNat
  (65 ≤ n && n ≤ 90) || (97 ≤ n && n ≤ 122) || (48 ≤ n && n ≤ 57) ||
  n == 0xAA || n == 0xB2 || n == 0xB3 || n == 0xB5 || n == 0xB9 || n == 0xBA ||
  (0xBC ≤ n && n ≤ 0xBE) || (0xC0 ≤ n && n ≤ 0xD6) ||
  (0xD8 ≤ n && n ≤ 0xF6) || (0xF8 ≤ n && n ≤ 0xFF)

/-- Embedding of Python's `str.upper` on a single character: exact on ASCII
(`a`..`z` map to `A`..`Z`), the identity elsewhere.  Theorems that quantify
over strings whose uppercasing matters are restricted to ASCII strings, where
this table is exact. -/
def pyToUpper (c : Char) : Char :=
  if 97 ≤ c.toNat && c.toNat ≤ 122 then Char.ofNat (c.toNat - 32) else c

/-- Embedding of Python's `str.strip()`: drop leading and trailing
characters satisfying `pyIsSpace`. -/
def pyStrip (s : List Char) : List Char :=
  ((s.dropWhile pyIsSpace).reverse.dropWhile pyIsSpace).reverse

/-- The spec's identifier-character class `[A-Za-z0-9_]` (spec §6,
"DSL grammar (textual, ASCII)").  Stated from the spec's words, to be compared
against the tokenizer's actual character class. -/
def specAsciiIdentChar (c : Char) : Bool :=
  let n := c.toNat
  (65 ≤ n && n ≤ 90) || (97 ≤ n && n ≤ 122) || (48 ≤ n && n ≤ 57) || c = '_'

/-- `TokenType` from `parser.py`. -/
inductive TokenType where
  | identifier
  | and
  | or
  | not
  | leftParen
  | rightParen
deriving DecidableEq, Repr

/-- `Token` from `parser.py`: a token type together with its text. -/
structure Token where
  type : TokenType
  value : List Char
deriving DecidableEq, Repr

/-- The distinct `DSLSyntaxException` raise sites of `parser.py`, one
constructor per message:
`emptyInput` = "DSL expression cannot be null or empty" (in `parse`),
`invalidCharacter c i` = "Invalid character 'c' at position i" (in `_tokenize`),
`emptyExpr` = "Empty expression" (in `_parse_tokens`),
`mismatchedParens` = "Mismatched parentheses" (in `_infix_to_postfix`),
`notWithoutOperand` = "Invalid expression: NOT operator without operand",
`andRequiresTwoOperands` = "Invalid expression: AND operator requires two operands",
`orRequiresTwoOperands` = "Invalid expression: OR operator requires two operands",
`malformedSyntax` = "Invalid expression: malformed syntax"
(all in `_build_expression_tree`). -/
inductive PyErr where
  | emptyInput
  | invalidCharacter (c : Char) (pos : Nat)
  | emptyExpr
  | mismatchedParens
  | notWithoutOperand
  | andRequiresTwoOperands
  | orRequiresTwoOperands
  | malformedSyntax
deriving DecidableEq, Repr

/-- The `token_map` dictionary of `DSLParser._get_token_type`; `none` models
the `ValueError` branch for a character outside the map.  In `_tokenize` the
lookup is guarded by `c in "&|!()"`, which holds exactly when this map is
defined, so the tokenizer below branches on this map directly. -/
def getTokenType (c : Char) : Option TokenType :=
  if c = '&' then some .and
  else if c = '|' then some .or
  else if c = '!' then some .not
  else if c = '(' then some .leftParen
  else if c = ')' then some .rightParen
  else none

/-- The "end current token if any" step of `DSLParser._tokenize`: append the
in-progress identifier (if non-empty) to the token list. -/
def flushIdent (cur : List Char) (toks : List Token) : List Token :=
  if cur.isEmpty then toks else toks ++ [⟨.identifier, cur⟩]

/-- The character loop of `DSLParser._tokenize`: `i` is the index of the head
of `cs` in the string handed to `_tokenize`, `cur` the in-progress identifier,
`toks` the tokens emitted so far. -/
def tokenizeAux : List Char → Nat → List Char → List Token → Except PyErr (List Token)
  | [], _, cur, toks => .ok (flushIdent cur toks)
  | c :: cs, i, cur, toks =>
    if pyIsSpace c then
      tokenizeAux cs (i + 1) [] (flushIdent cur toks)
    else
      match getTokenType c with
      | some tt => tokenizeAux cs (i + 1) [] (flushIdent cur toks ++ [⟨tt, [c]⟩])
      | none =>
        if pyIsAlnum c || c = '_' then
          tokenizeAux cs (i + 1) (cur ++ [c]) toks
        else
          .error (.invalidCharacter c i)

/-- `DSLParser._tokenize`. -/
def tokenize (s : List Char) : Except PyErr (List Token) :=
  tokenizeAux s 0 [] []

/-- `DSLParser._get_precedence` (`precedence_map` with default 0). -/
def prec : TokenType → Nat
  | .not => 3
  | .and => 2
  | .or => 1
  | _ => 0

/-- The inner `while` of the AND/OR case of `_infix_to_postfix`: pop operators
into the output while the stack top is not `(` and has precedence ≥ `p`.
Returns (popped operators in pop order, remaining stack).  The stack's head is
its top. -/
def popWhileGE (p : Nat) : List Token → List Token × List Token
  | [] => ([], [])
  | o :: ops =>
    if o.type ≠ .leftParen && p ≤ prec o.type then
      let pr := popWhileGE p ops
      (o :: pr.1, pr.2)
    else
      ([], o :: ops)

/-- The `)` case of `_infix_to_postfix`: pop into the output until a `(` is
found (which is discarded); error if the stack empties first. -/
def popUntilParen : List Token → Except PyErr (List Token × List Token)
  | [] => .error .mismatchedParens
  | o :: ops =>
    if o.type = .leftParen then .ok ([], ops)
    else do
      let pr ← popUntilParen ops
      .ok (o :: pr.1, pr.2)

/-- The final drain of `_infix_to_postfix`: pop all remaining operators into
the output; error if a `(` remains. -/
def drainOps : List Token → Except PyErr (List Token)
  | [] => .ok []
  | o :: ops =>
    if o.type = .leftParen then .error .mismatchedParens
    else do
      let rest ← drainOps ops
      .ok (o :: rest)

/-- The token loop of `DSLParser._infix_to_postfix` (shunting yard), with
`out` the output so far and `ops` the operator stack (head = top). -/
def shuntingYardAux : List Token → List Token → List Token → Except PyErr (List Token)
  | [], out, ops => do
    let rest ← drainOps ops
    .ok (out ++ rest)
  | t :: ts, out, ops =>
    match t.type with
    | .identifier => shuntingYardAux ts (out ++ [t]) ops
    | .not => shuntingYardAux ts out (t :: ops)
    | .and =>
      let pr := popWhileGE (prec .and) ops
      shuntingYardAux ts (out ++ pr.1) (t :: pr.2)
    | .or =>
      let pr := popWhileGE (prec .or) ops
      shuntingYardAux ts (out ++ pr.1) (t :: pr.2)
    | .leftParen => shuntingYardAux ts out (t :: ops)
    | .rightParen => do
      let pr ← popUntilParen ops
      shuntingYardAux ts (out ++ pr.1) pr.2

/-- `DSLParser._infix_to_postfix`: convert an infix token sequence to
postfix (reverse Polish) order. -/
def shuntingYard (tokens : List Token) : Except PyErr (List Token) :=
  shuntingYardAux tokens [] []

/-- The expression-tree node classes of `parser.py`
(`IdentifierNode`, `NotNode`, `AndNode`, `OrNode`). -/
inductive FilterTree where
  | identifierNode (name : List Char)
  | notNode (operand : FilterTree)
  | andNode (left right : FilterTree)
  | orNode (left right : FilterTree)
deriving DecidableEq, Repr

/-- One step of the token loop of `DSLParser._build_expression_tree`; the
node stack's head is its top, so a binary operator pops right then left.
Parenthesis tokens fall through the `if`/`elif` chain and leave the stack
unchanged. -/
def buildStep (stack : List FilterTree) (t : Token) : Except PyErr (List FilterTree) :=
  match t.type with
  | .identifier => .ok (.identifierNode t.value :: stack)
  | .not =>
    match stack with
    | [] => .error .notWithoutOperand
    | x :: rest => .ok (.notNode x :: rest)
  | .and =>
    match stack with
    | right :: left :: rest => .ok (.andNode left right :: rest)
    | _ => .error .andRequiresTwoOperands
  | .or =>
    match stack with
    | right :: left :: rest => .ok (.orNode left right :: rest)
    | _ => .error .orRequiresTwoOperands
  | _ => .ok stack

/-- `DSLParser._build_expression_tree`. -/
def buildExpressionTree (post : List Token) : Except PyErr FilterTree := do
  let stack ← post.foldlM buildStep []
  match stack with
  | [x] => .ok x
  | _ => .error .malformedSyntax

/-- `DSLParser._parse_tokens`. -/
def parseTokens (tokens : List Token) : Except PyErr FilterTree :=
  if tokens.isEmpty then .error .emptyExpr
  else do
    let post ← shuntingYard tokens
    buildExpressionTree post

/-- `DSLParser.parse`: the blank check (`not dsl_expression or not
dsl_expression.strip()`) followed by `_parse_expression` on the stripped
string. -/
def parse (s : List Char) : Except PyErr FilterTree :=
  if (pyStrip s).isEmpty then .error .emptyInput
  else do
    let tokens ← tokenize (pyStrip s)
    parseTokens tokens

/-- The distinct `ValueError` raise sites seen during generation and condition
combination: `unknownFilterKey name` = "No condition found for identifier:
name" (`IdentifierNode.generate`), `incompatibleConditionKind` = "Cannot
combine with non-Django/SQLAlchemy condition" (the adapters' `and_`/`or_`).
The spec's names (`UnknownFilterKey`, `IncompatibleConditionKind`) are used
for the constructors. -/
inductive GenErr where
  | unknownFilterKey (name : List Char)
  | incompatibleConditionKind
deriving DecidableEq, Repr

/-- The duck-typed `Condition` protocol of `interfaces.py`, as consumed by the
tree nodes' `generate` methods: a carrier with `and_`/`or_` (which may raise)
and `not_`. -/
structure ConditionOps (C : Type) where
  andOp : C → C → Except GenErr C
  orOp : C → C → Except GenErr C
  notOp : C → C

/-- `ExpressionNode.generate(context)` from `parser.py`: `IdentifierNode`
looks its identifier up in the context (the concrete `Condition` classes of
this repository define neither `__bool__` nor `__len__`, so Python's
`if not condition` is exactly the `None` test, embedded as the `Option`
match); `NotNode`, `AndNode`, `OrNode` recurse left-to-right and call the
condition combinators. -/
def FilterTree.generate {C : Type} (ops : ConditionOps C) (ctx : List Char → Option C) :
    FilterTree → Except GenErr C
  | .identifierNode name =>
    match ctx name with
    | some c => .ok c
    | none => .error (.unknownFilterKey name)
  | .notNode x => do
    let v ← x.generate ops ctx
    .ok (ops.notOp v)
  | .andNode l r => do
    let a ← l.generate ops ctx
    let b ← r.generate ops ctx
    ops.andOp a b
  | .orNode l r => do
    let a ← l.generate ops ctx
    let b ← r.generate ops ctx
    ops.orOp a b

/-- Django `Q` objects as an opaque term algebra: `django_adapter`'s `Q`
supports `&`, `|` and `~`, each building a new object. -/
inductive QExpr where
  | base (n : Nat)
  | qAnd (l r : QExpr)
  | qOr (l r : QExpr)
  | qNot (x : QExpr)
deriving DecidableEq, Repr

/-- SQLAlchemy where-clause fragments as an opaque term algebra: the
adapter combines them with `&`, `|` and `~`. -/
inductive WExpr where
  | base (n : Nat)
  | wAnd (l r : WExpr)
  | wOr (l r : WExpr)
  | wNot (x : WExpr)
deriving DecidableEq, Repr

/-- The two concrete `Condition` variants of the repository:
`DjangoConditionAdapter` (wrapping a `Q` object) and
`SQLAlchemyConditionAdapter` (wrapping a where-condition). -/
inductive Cond where
  | djangoCond (q : QExpr)
  | sqlaCond (w : WExpr)
deriving DecidableEq, Repr

/-- The backend tag of a concrete condition (`isinstance` checks in the
adapters compare exactly this). -/
inductive BackendKind where
  | django
  | sqlalchemy
deriving DecidableEq, Repr

/-- The concrete class of a condition value. -/
def Cond.kind : Cond → BackendKind
  | .djangoCond _ => .django
  | .sqlaCond _ => .sqlalchemy

/-- `DjangoConditionAdapter.and_` / `SQLAlchemyConditionAdapter.and_`: the
`isinstance` guard raises `ValueError` ("Cannot combine with non-...
condition") on a variant mismatch, otherwise a new wrapper around `self.q &
other.q` is returned. -/
def Cond.and_ : Cond → Cond → Except GenErr Cond
  | .djangoCond a, .djangoCond b => .ok (.djangoCond (.qAnd a b))
  | .sqlaCond a, .sqlaCond b => .ok (.sqlaCond (.wAnd a b))
  | _, _ => .error .incompatibleConditionKind

/-- `DjangoConditionAdapter.or_` / `SQLAlchemyConditionAdapter.or_`. -/
def Cond.or_ : Cond → Cond → Except GenErr Cond
  | .djangoCond a, .djangoCond b => .ok (.djangoCond (.qOr a b))
  | .sqlaCond a, .sqlaCond b => .ok (.sqlaCond (.wOr a b))
  | _, _ => .error .incompatibleConditionKind

/-- `DjangoConditionAdapter.not_` / `SQLAlchemyConditionAdapter.not_`:
no guard, always a new wrapper of the same class. -/
def Cond.not_ : Cond → Cond
  | .djangoCond a => .djangoCond (.qNot a)
  | .sqlaCond a => .sqlaCond (.wNot a)

/-- The `ConditionOps` instance of the repository's concrete adapters. -/
def condOps : ConditionOps Cond :=
  ⟨Cond.and_, Cond.or_, Cond.not_⟩

/-- The `Operator` enumeration of `validation.py`, in declaration order. -/
inductive Operator where
  | equals
  | notEquals
  | greaterThan
  | greaterThanOrEqual
  | lessThan
  | lessThanOrEqual
  | like
  | notLike
  | inOp
  | notIn
  | isNull
  | isNotNull
  | between
  | notBetween
deriving DecidableEq, Repr, Fintype

/-- The `value` (canonical symbol) of each `Operator` member. -/
def Operator.symbol : Operator → List Char
  | .equals => "=".toList
  | .notEquals => "!=".toList
  | .greaterThan => ">".toList
  | .greaterThanOrEqual => ">=".toList
  | .lessThan => "<".toList
  | .lessThanOrEqual => "<=".toList
  | .like => "LIKE".toList
  | .notLike => "NOT LIKE".toList
  | .inOp => "IN".toList
  | .notIn => "NOT IN".toList
  | .isNull => "IS NULL".toList
  | .isNotNull => "IS NOT NULL".toList
  | .between => "BETWEEN".toList
  | .notBetween => "NOT BETWEEN".toList

/-- Python's `for op in Operator` iterates the members in declaration order. -/
def operatorList : List Operator :=
  [.equals, .notEquals, .greaterThan, .greaterThanOrEqual, .lessThan,
   .lessThanOrEqual, .like, .notLike, .inOp, .notIn, .isNull, .isNotNull,
   .between, .notBetween]

/-- `parse_operator` from `validation.py`: `None` for the empty string;
otherwise the first enum member whose symbol equals the raw input or its
trimmed, uppercased form. -/
def parseOperator (value : List Char) : Option Operator :=
  if value.isEmpty then none
  else
    let trimmed := (pyStrip value).map pyToUpper
    operatorList.find? fun op => op.symbol == value || op.symbol == trimmed

/-- `operator_requires_value` from `validation.py`. -/
def operatorRequiresValue (op : Operator) : Bool :=
  !(op = .isNull || op = .isNotNull)

/-- `operator_supports_multiple_values` from `validation.py`. -/
def operatorSupportsMultipleValues (op : Operator) : Bool :=
  op = .inOp || op = .notIn || op = .between || op = .notBetween

/-- `PropertyRefImpl` from `src/core/python/src/validation.py`: a type name
together with the list of supported operators. -/
structure PropertyRefImpl where
  typeName : List Char
  supportedOperators : List Operator
deriving DecidableEq, Repr

/-- `FilterDefinition` from `interfaces.py`: a property reference (a string
key into the property-ref implementation in the SQLAlchemy adapter), an
operator, and an opaque value. -/
structure FilterDef (V : Type) where
  ref : List Char
  operator : Operator
  value : V
deriving DecidableEq, Repr

/-- The distinct failure outcomes of `SQLAlchemyContextAdapter.add_condition`,
plus the spec's `InvalidValueCardinality` (spec §7), which is included so that
its absence from the adapter's behaviour is expressible:
`invalidPropertyRef key` = `ValueError` "Invalid PropertyRef: key",
`operatorNotSupported` = the `ValueError` raised by operator validation
(`OperatorNotSupported` in the spec). -/
inductive AdapterErr where
  | invalidPropertyRef (key : List Char)
  | operatorNotSupported
  | invalidValueCardinality
deriving DecidableEq, Repr

/-- Modelled from the spec: `PropertyRefUtils.validate_operator` is imported
by `sqlalchemy-context-adapter.py` but its definition is not among the
provided sources; per spec §4.2 validation "fails with OperatorNotSupported
when !supports(op)", where `supports` is "pure set membership" in the
property's supported operators (as in `PropertyRefImpl.validate_operator`).
Note it receives only the property and the operator, never the value. -/
def validateOperator (pr : PropertyRefImpl) (op : Operator) : Except AdapterErr Unit :=
  if pr.supportedOperators.contains op then .ok () else .error .operatorNotSupported

/-- `SQLAlchemyContextAdapter.add_condition`: look the definition's `ref` up
in the property-ref implementation (`getattr(..., None)`, `ValueError` when
absent), validate the operator against the property, then build the
condition with the builder and store it under `filter_key`.  The filter map is
an association list with the newest binding in front; `V` is the opaque type
of the definition's `value` (typed `Any` in Python). -/
def addCondition {V : Type} (propImpl : List Char → Option PropertyRefImpl)
    (builder : List Char → Operator → V → Cond)
    (filters : List (List Char × Cond)) (filterKey : List Char)
    (defn : FilterDef V) :
    Except AdapterErr (List (List Char × Cond)) :=
  match propImpl defn.ref with
  | none => .error (.invalidPropertyRef defn.ref)
  | some pr => do
    let _ ← validateOperator pr defn.operator
    .ok ((filterKey, builder defn.ref defn.operator defn.value) :: filters)

/-- The characters `DSLParser._tokenize` consumes without error: whitespace,
the five operator/grouping characters, and identifier characters
(`c.isalnum() or c == '_'`). -/
def validTokChar (c : Char) : Bool :=
  pyIsSpace c || (getTokenType c).isSome || pyIsAlnum c || c = '_'

/-- Dyck balance counter for parenthesis tokens: `n` open parentheses so
far; a token sequence is balanced when no prefix closes more parentheses
than it opened and the counts match at the end.  This is the standard
reading of "unbalanced parentheses" used to state the claim about
`_infix_to_postfix`. -/
def parenBalAux : List Token → Nat → Bool
  | [], n => n == 0
  | t :: ts, n =>
    match t.type with
    | .leftParen => parenBalAux ts (n + 1)
    | .rightParen => if n == 0 then false else parenBalAux ts (n - 1)
    | _ => parenBalAux ts n

/-- A token sequence has balanced parentheses. -/
def parensBalanced (ts : List Token) : Bool := parenBalAux ts 0

/-- Number of `(` tokens on an operator stack. -/
def countLP (ops : List Token) : Nat :=
  ops.countP fun t => t.type == .leftParen

/-- A concrete property-ref implementation for checking
`SQLAlchemyContextAdapter.add_condition`: one property `AGE` supporting
`IS NULL` and `=`. -/
def agePropImpl : List Char → Option PropertyRefImpl := fun k =>
  if k = "AGE".toList then some ⟨"int".toList, [.isNull, .equals]⟩ else none

/-- A concrete backend builder for checking `add_condition`; the built
condition is recognizable so that the builder's invocation is visible in the
adapter's state. -/
def ageBuilder : List Char → Operator → Option (List Nat) → Cond :=
  fun _ _ _ => Cond.sqlaCond (.base 7)

/-- A concrete resolution context over the concrete condition variants,
holding the single key `k`. -/
def oneKeyCtx : List Char → Option Cond := fun n =>
  if n = "k".toList then some (Cond.djangoCond (.base 0)) else none

/-- A concrete resolution context holding three keys `a`, `b`, `c`, for
witnessing the precedence claim. -/
def threeKeyCtx : List Char → Option Cond := fun n =>
  if n = "a".toList then some (Cond.djangoCond (.base 1))
  else if n = "b".toList then some (Cond.djangoCond (.base 2))
  else if n = "c".toList then some (Cond.djangoCond (.base 3))
  else none

end DynFilter

namespace DynFilter

/-! Helper lemmas about the shunting-yard operator stack. -/

theorem countLP_cons (o : Token) (ops : List Token) :
    countLP (o :: ops) = countLP ops + if o.type = .leftParen then 1 else 0 := by
  simp [countLP, List.countP_cons]

theorem popWhileGE_countLP (p : Nat) : ∀ ops : List Token,
    countLP (popWhileGE p ops).2 = countLP ops := by
  intro ops
  induction ops with
  | nil => rfl
  | cons o ops ih =>
    rw [popWhileGE]
    split
    · next hcond =>
      have hlp : ¬ o.type = .leftParen := by
        rcases Bool.and_eq_true_iff.1 hcond with ⟨h1, _⟩
        simpa using h1
      simp only [ih, countLP_cons, if_neg hlp]
      omega
    · rfl

theorem popUntilParen_of_zero : ∀ ops : List Token, countLP ops = 0 →
    popUntilParen ops = .error .mismatchedParens := by
  intro ops
  induction ops with
  | nil => intro _; rfl
  | cons o ops ih =>
    intro h
    rw [countLP_cons] at h
    have hlp : ¬ o.type = .leftParen := by
      intro hc
      rw [if_pos hc] at h
      omega
    have h0 : countLP ops = 0 := by
      rw [if_neg hlp] at h
      omega
    rw [popUntilParen, if_neg hlp, ih h0]
    rfl

theorem popUntilParen_of_pos : ∀ ops : List Token, 0 < countLP ops →
    ∃ pr, popUntilParen ops = .ok pr ∧ countLP pr.2 = countLP ops - 1 := by
  intro ops
  induction ops with
  | nil => intro h; simp [countLP] at h
  | cons o ops ih =>
    intro h
    by_cases hlp : o.type = .leftParen
    · refine ⟨([], ops), by rw [popUntilParen, if_pos hlp], ?_⟩
      show countLP ops = countLP (o :: ops) - 1
      rw [countLP_cons, if_pos hlp]
      omega
    · have h' : 0 < countLP ops := by
        rw [countLP_cons, if_neg hlp] at h
        omega
      obtain ⟨pr, hpr, hcount⟩ := ih h'
      refine ⟨(o :: pr.1, pr.2), ?_, ?_⟩
      · rw [popUntilParen, if_neg hlp, hpr]
        rfl
      · show countLP pr.2 = countLP (o :: ops) - 1
        rw [countLP_cons, if_neg hlp]
        omega

theorem drainOps_of_pos : ∀ ops : List Token, 0 < countLP ops →
    drainOps ops = .error .mismatchedParens := by
  intro ops
  induction ops with
  | nil => intro h; simp [countLP] at h
  | cons o ops ih =>
    intro h
    by_cases hlp : o.type = .leftParen
    · rw [drainOps, if_pos hlp]
    · have h' : 0 < countLP ops := by
        rw [countLP_cons, if_neg hlp] at h
        omega
      rw [drainOps, if_neg hlp, ih h']
      rfl

theorem shuntingYardAux_unbalanced : ∀ (ts out ops : List Token),
    parenBalAux ts (countLP ops) = false →
    shuntingYardAux ts out ops = .error .mismatchedParens := by
  intro ts
  induction ts with
  | nil =>
    intro out ops h
    rw [parenBalAux] at h
    have hpos : 0 < countLP ops := by
      cases hn : countLP ops
      · rw [hn] at h
        simp at h
      · omega
    rw [shuntingYardAux, drainOps_of_pos ops hpos]
    rfl
  | cons t ts ih =>
    intro out ops h
    obtain ⟨tt, v⟩ := t
    cases tt with
    | identifier => exact ih (out ++ [⟨.identifier, v⟩]) ops h
    | not =>
      refine ih out (⟨.not, v⟩ :: ops) ?_
      have hc : countLP (⟨TokenType.not, v⟩ :: ops) = countLP ops := by
        rw [countLP_cons]
        simp
      rw [hc]
      exact h
    | and =>
      have hc : countLP (⟨TokenType.and, v⟩ :: (popWhileGE (prec .and) ops).2) = countLP ops := by
        rw [countLP_cons, popWhileGE_countLP]
        simp
      exact ih (out ++ (popWhileGE (prec .and) ops).1)
        (⟨TokenType.and, v⟩ :: (popWhileGE (prec .and) ops).2) (by rw [hc]; exact h)
    | or =>
      have hc : countLP (⟨TokenType.or, v⟩ :: (popWhileGE (prec .or) ops).2) = countLP ops := by
        rw [countLP_cons, popWhileGE_countLP]
        simp
      exact ih (out ++ (popWhileGE (prec .or) ops).1)
        (⟨TokenType.or, v⟩ :: (popWhileGE (prec .or) ops).2) (by rw [hc]; exact h)
    | leftParen =>
      have hc : countLP (⟨TokenType.leftParen, v⟩ :: ops) = countLP ops + 1 := by
        rw [countLP_cons]
        simp
      exact ih out (⟨TokenType.leftParen, v⟩ :: ops) (by rw [hc]; exact h)
    | rightParen =>
      show (do
          let pr ← popUntilParen ops
          shuntingYardAux ts (out ++ pr.1) pr.2) = .error .mismatchedParens
      by_cases h0 : countLP ops = 0
      · rw [popUntilParen_of_zero ops h0]
        rfl
      · obtain ⟨pr, hpr, hcount⟩ := popUntilParen_of_pos ops (by omega)
        rw [hpr]
        have hbal : parenBalAux ts (countLP pr.2) = false := by
          rw [hcount]
          have hred : parenBalAux (⟨TokenType.rightParen, v⟩ :: ts) (countLP ops) =
              if (countLP ops == 0) = true then false
              else parenBalAux ts (countLP ops - 1) := rfl
          rw [hred, if_neg (by simpa using h0)] at h
          exact h
        exact ih (out ++ pr.1) pr.2 hbal

/-! Helper lemmas characterizing which errors each phase can raise. -/

theorem buildStep_error_shape (stack : List FilterTree) (t : Token) (e : PyErr)
    (h : buildStep stack t = .error e) :
    e = .notWithoutOperand ∨ e = .andRequiresTwoOperands ∨ e = .orRequiresTwoOperands := by
  obtain ⟨tt, v⟩ := t
  cases tt with
  | identifier => cases h
  | not =>
    cases stack with
    | nil => exact Or.inl (Except.error.inj h).symm
    | cons a rest => cases h
  | and =>
    rcases stack with _ | ⟨a, _ | ⟨b, rest⟩⟩
    · exact Or.inr (Or.inl (Except.error.inj h).symm)
    · exact Or.inr (Or.inl (Except.error.inj h).symm)
    · cases h
  | or =>
    rcases stack with _ | ⟨a, _ | ⟨b, rest⟩⟩
    · exact Or.inr (Or.inr (Except.error.inj h).symm)
    · exact Or.inr (Or.inr (Except.error.inj h).symm)
    · cases h
  | leftParen => cases h
  | rightParen => cases h

theorem foldlM_buildStep_error_shape : ∀ (post : List Token) (stack : List FilterTree)
    (e : PyErr), List.foldlM buildStep stack post = .error e →
    e = .notWithoutOperand ∨ e = .andRequiresTwoOperands ∨ e = .orRequiresTwoOperands := by
  intro post
  induction post with
  | nil =>
    intro stack e h
    have h' : (Except.ok stack : Except PyErr (List FilterTree)) = .error e := h
    cases h'
  | cons t post ih =>
    intro stack e h
    rw [List.foldlM_cons] at h
    cases hb : buildStep stack t with
    | ok s' =>
      rw [hb] at h
      have h' : List.foldlM buildStep s' post = .error e := h
      exact ih _ _ h'
    | error e' =>
      rw [hb] at h
      have h' : (Except.error e' : Except PyErr (List FilterTree)) = .error e := h
      have he : e' = e := Except.error.inj h'
      exact he ▸ buildStep_error_shape stack t e' hb

theorem buildExpressionTree_error_shape (post : List Token) (e : PyErr)
    (h : buildExpressionTree post = .error e) :
    e = .notWithoutOperand ∨ e = .andRequiresTwoOperands ∨ e = .orRequiresTwoOperands ∨
      e = .malformedSyntax := by
  rw [buildExpressionTree] at h
  cases hf : List.foldlM buildStep [] post with
  | ok stack =>
    rw [hf] at h
    rcases stack with _ | ⟨a, _ | ⟨b, rest⟩⟩
    · have h' : (Except.error PyErr.malformedSyntax : Except PyErr FilterTree) = .error e := h
      exact Or.inr (Or.inr (Or.inr (Except.error.inj h').symm))
    · have h' : (Except.ok a : Except PyErr FilterTree) = .error e := h
      cases h'
    · have h' : (Except.error PyErr.malformedSyntax : Except PyErr FilterTree) = .error e := h
      exact Or.inr (Or.inr (Or.inr (Except.error.inj h').symm))
  | error e' =>
    rw [hf] at h
    have h' : (Except.error e' : Except PyErr FilterTree) = .error e := h
    have he : e' = e := Except.error.inj h'
    rcases he ▸ foldlM_buildStep_error_shape post [] e' hf with h1 | h1 | h1 <;> simp [h1]

theorem popUntilParen_error_shape : ∀ (ops : List Token) (e : PyErr),
    popUntilParen ops = .error e → e = .mismatchedParens := by
  intro ops
  induction ops with
  | nil => intro e h; exact (Except.error.inj h).symm
  | cons o ops ih =>
    intro e h
    rw [popUntilParen] at h
    split at h
    · cases h
    · cases hp : popUntilParen ops with
      | ok pr =>
        rw [hp] at h
        have h' : (Except.ok (o :: pr.1, pr.2) : Except PyErr (List Token × List Token)) =
            .error e := h
        cases h'
      | error e' =>
        rw [hp] at h
        have h' : (Except.error e' : Except PyErr (List Token × List Token)) = .error e := h
        exact Except.error.inj h' ▸ ih e' hp

theorem drainOps_error_shape : ∀ (ops : List Token) (e : PyErr),
    drainOps ops = .error e → e = .mismatchedParens := by
  intro ops
  induction ops with
  | nil => intro e h; cases h
  | cons o ops ih =>
    intro e h
    rw [drainOps] at h
    split at h
    · exact (Except.error.inj h).symm
    · cases hp : drainOps ops with
      | ok rest =>
        rw [hp] at h
        have h' : (Except.ok (o :: rest) : Except PyErr (List Token)) = .error e := h
        cases h'
      | error e' =>
        rw [hp] at h
        have h' : (Except.error e' : Except PyErr (List Token)) = .error e := h
        exact Except.error.inj h' ▸ ih e' hp

theorem shuntingYardAux_error_shape : ∀ (ts out ops : List Token) (e : PyErr),
    shuntingYardAux ts out ops = .error e → e = .mismatchedParens := by
  intro ts
  induction ts with
  | nil =>
    intro out ops e h
    rw [shuntingYardAux] at h
    cases hd : drainOps ops with
    | ok rest =>
      rw [hd] at h
      have h' : (Except.ok (out ++ rest) : Except PyErr (List Token)) = .error e := h
      cases h'
    | error e' =>
      rw [hd] at h
      have h' : (Except.error e' : Except PyErr (List Token)) = .error e := h
      exact Except.error.inj h' ▸ drainOps_error_shape ops e' hd
  | cons t ts ih =>
    intro out ops e h
    obtain ⟨tt, v⟩ := t
    cases tt with
    | identifier => exact ih _ _ _ h
    | not => exact ih _ _ _ h
    | and => exact ih _ _ _ h
    | or => exact ih _ _ _ h
    | leftParen => exact ih _ _ _ h
    | rightParen =>
      have h0 : (do
          let pr ← popUntilParen ops
          shuntingYardAux ts (out ++ pr.1) pr.2) = Except.error e := h
      cases hp : popUntilParen ops with
      | ok pr =>
        rw [hp] at h0
        have h' : shuntingYardAux ts (out ++ pr.1) pr.2 = .error e := h0
        exact ih _ _ _ h'
      | error e' =>
        rw [hp] at h0
        have h' : (Except.error e' : Except PyErr (List Token)) = .error e := h0
        exact Except.error.inj h' ▸ popUntilParen_error_shape ops e' hp

end DynFilter

namespace DynFilter

/-! Helper lemmas about the tokenizer. -/

theorem tokenizeAux_error_shape : ∀ (cs : List Char) (i : Nat) (cur : List Char)
    (toks : List Token) (e : PyErr),
    tokenizeAux cs i cur toks = .error e → ∃ c j, e = .invalidCharacter c j := by
  intro cs
  induction cs with
  | nil => intro i cur toks e h; cases h
  | cons c cs ih =>
    intro i cur toks e h
    rw [tokenizeAux] at h
    split at h
    · exact ih _ _ _ _ h
    · split at h
      · exact ih _ _ _ _ h
      · split at h
        · exact ih _ _ _ _ h
        · exact ⟨c, i, (Except.error.inj h).symm⟩

theorem flushIdent_ne_nil_left (cur : List Char) (toks : List Token) (h : toks ≠ []) :
    flushIdent cur toks ≠ [] := by
  rw [flushIdent]
  split
  · exact h
  · simp

theorem flushIdent_ne_nil_cur (cur : List Char) (toks : List Token) (h : cur ≠ []) :
    flushIdent cur toks ≠ [] := by
  rw [flushIdent, if_neg (by simpa using h)]
  simp

theorem tokenizeAux_ok_ne_nil : ∀ (cs : List Char) (i : Nat) (cur : List Char)
    (toks res : List Token),
    tokenizeAux cs i cur toks = .ok res →
    ((∃ c ∈ cs, pyIsSpace c = false) ∨ cur ≠ [] ∨ toks ≠ []) → res ≠ [] := by
  intro cs
  induction cs with
  | nil =>
    intro i cur toks res h hne
    have hres : flushIdent cur toks = res := Except.ok.inj h
    subst hres
    rcases hne with ⟨c, hc, _⟩ | hcur | htoks
    · cases hc
    · exact flushIdent_ne_nil_cur _ _ hcur
    · exact flushIdent_ne_nil_left _ _ htoks
  | cons c cs ih =>
    intro i cur toks res h hne
    rw [tokenizeAux] at h
    split at h
    · next hsp =>
      refine ih _ _ _ _ h ?_
      rcases hne with ⟨c', hc', hnsp⟩ | hcur | htoks
      · cases hc' with
        | head => rw [hsp] at hnsp; cases hnsp
        | tail _ hm => exact Or.inl ⟨c', hm, hnsp⟩
      · exact Or.inr (Or.inr (flushIdent_ne_nil_cur _ _ hcur))
      · exact Or.inr (Or.inr (flushIdent_ne_nil_left _ _ htoks))
    · split at h
      · refine ih _ _ _ _ h (Or.inr (Or.inr ?_))
        simp
      · split at h
        · refine ih _ _ _ _ h (Or.inr (Or.inl ?_))
          simp
        · cases h

theorem dropWhile_head_false (p : Char → Bool) : ∀ (l : List Char) (c : Char) (r : List Char),
    l.dropWhile p = c :: r → p c = false := by
  intro l
  induction l with
  | nil => intro c r h; cases h
  | cons a l ih =>
    intro c r h
    rw [List.dropWhile_cons] at h
    split at h
    · exact ih _ _ h
    · next hp =>
      have hac : a = c := (List.cons.inj h).1
      have hpa : p a = false := by
        cases hpa : p a
        · rfl
        · exact absurd hpa hp
      rw [← hac]
      exact hpa

theorem stripHasNonSpace (s : List Char) (h : pyStrip s ≠ []) :
    ∃ c ∈ pyStrip s, pyIsSpace c = false := by
  rw [pyStrip] at h ⊢
  set u := (s.dropWhile pyIsSpace).reverse.dropWhile pyIsSpace with hu
  have hune : u ≠ [] := by
    intro hc
    rw [hc] at h
    exact h rfl
  cases hcs : u with
  | nil => exact absurd hcs hune
  | cons c r =>
    have hpc : pyIsSpace c = false := dropWhile_head_false pyIsSpace _ _ _ (hu ▸ hcs)
    refine ⟨c, ?_, hpc⟩
    simp

theorem validTokChar_false_elim (c : Char) (hc : validTokChar c = false) :
    pyIsSpace c = false ∧ getTokenType c = none ∧ pyIsAlnum c = false ∧
      decide (c = '_') = false := by
  simp only [validTokChar, Bool.or_eq_false_iff] at hc
  obtain ⟨⟨⟨h1, h2⟩, h3⟩, h4⟩ := hc
  exact ⟨h1, Option.not_isSome_iff_eq_none.mp (by simp [h2]), h3, h4⟩

theorem tokenizeAux_first_invalid : ∀ (pre : List Char) (c : Char) (rest : List Char)
    (i : Nat) (cur : List Char) (toks : List Token),
    (∀ a ∈ pre, validTokChar a = true) → validTokChar c = false →
    tokenizeAux (pre ++ c :: rest) i cur toks =
      .error (.invalidCharacter c (i + pre.length)) := by
  intro pre
  induction pre with
  | nil =>
    intro c rest i cur toks _ hc
    obtain ⟨hsp, hop, hal, hus⟩ := validTokChar_false_elim c hc
    simp [tokenizeAux, hsp, hop, hal, hus]
  | cons a pre ih =>
    intro c rest i cur toks hpre hc
    have ha : validTokChar a = true := hpre a (.head _)
    have harith : i + 1 + pre.length = i + (pre.length + 1) := by omega
    by_cases hsp : pyIsSpace a = true
    · rw [List.cons_append, tokenizeAux, if_pos hsp,
        ih c rest (i + 1) [] (flushIdent cur toks) (fun x hx => hpre x (.tail _ hx)) hc,
        List.length_cons, harith]
    · cases hop : getTokenType a with
      | some tt =>
        have hstep : tokenizeAux ((a :: pre) ++ c :: rest) i cur toks =
            tokenizeAux (pre ++ c :: rest) (i + 1) []
              (flushIdent cur toks ++ [⟨tt, [a]⟩]) := by
          rw [List.cons_append, tokenizeAux, if_neg hsp, hop]
        rw [hstep, ih c rest (i + 1) [] _ (fun x hx => hpre x (.tail _ hx)) hc,
          List.length_cons, harith]
      | none =>
        have hal : (pyIsAlnum a || decide (a = '_')) = true := by
          simp only [validTokChar, Bool.or_eq_true] at ha
          rcases ha with ((h1 | h2) | h3) | h4
          · exact absurd h1 hsp
          · rw [hop] at h2
            cases h2
          · simp [h3]
          · simp [h4]
        have hstep : tokenizeAux ((a :: pre) ++ c :: rest) i cur toks =
            tokenizeAux (pre ++ c :: rest) (i + 1) (cur ++ [a]) toks := by
          rw [List.cons_append, tokenizeAux, if_neg hsp, hop]
          simp [hal]
        rw [hstep, ih c rest (i + 1) (cur ++ [a]) toks (fun x hx => hpre x (.tail _ hx)) hc,
          List.length_cons, harith]

/-! Helper lemmas about the operator catalog. -/

theorem opSymbol_norm : ∀ op : Operator, (pyStrip op.symbol).map pyToUpper = op.symbol := by
  decide

theorem opSymbol_inj : ∀ a b : Operator, a.symbol = b.symbol → a = b := by decide

theorem opSymbol_ne_nil : ∀ op : Operator, op.symbol ≠ [] := by decide

theorem op_mem_operatorList : ∀ op : Operator, op ∈ operatorList := by decide

theorem find_first_of_iff {p : Operator → Bool} {op : Operator}
    (hp : ∀ o, p o = true ↔ o = op) :
    ∀ L : List Operator, op ∈ L → L.find? p = some op := by
  intro L hm
  induction L with
  | nil => cases hm
  | cons a L ih =>
    by_cases ha : a = op
    · subst ha
      rw [List.find?_cons_of_pos _ ((hp a).2 rfl)]
    · have hpa : ¬ p a = true := fun h => ha ((hp a).1 h)
      rw [List.find?_cons_of_neg _ hpa]
      cases hm with
      | head => exact absurd rfl ha
      | tail _ hm => exact ih hm

theorem parseOperator_of_norm (op : Operator) (s : List Char)
    (hmatch : (pyStrip s).map pyToUpper = op.symbol) :
    parseOperator s = some op := by
  have hne : s ≠ [] := by
    intro h
    subst h
    exact opSymbol_ne_nil op hmatch.symm
  rw [parseOperator, if_neg (by simpa using hne)]
  apply find_first_of_iff _ operatorList (op_mem_operatorList op)
  intro o
  constructor
  · intro h
    rcases Bool.or_eq_true_iff.1 h with h | h
    · have hs : o.symbol = s := by simpa using h
      apply opSymbol_inj
      rw [← hmatch, ← hs, opSymbol_norm]
    · have hs : o.symbol = (pyStrip s).map pyToUpper := by simpa using h
      exact opSymbol_inj _ _ (hs.trans hmatch)
  · intro h
    subst h
    simp [hmatch]

theorem parseOperator_none_of_no_match (s : List Char)
    (hascii : ∀ c ∈ s, c.toNat < 128)
    (hnone : ∀ op : Operator, (pyStrip s).map pyToUpper ≠ op.symbol) :
    parseOperator s = none := by
  rw [parseOperator]
  by_cases hs : s.isEmpty
  · rw [if_pos hs]
  · rw [if_neg hs]
    rw [List.find?_eq_none]
    intro o _
    simp only [Bool.or_eq_true_iff, not_or]
    constructor
    · intro h
      have hs' : o.symbol = s := by simpa using h
      exact hnone o (by rw [← hs', opSymbol_norm])
    · intro h
      have hs' : o.symbol = (pyStrip s).map pyToUpper := by simpa using h
      exact hnone o hs'.symm

end DynFilter

namespace DynFilter

/-- Claim C1: for every context mapping `a`, `b`, `c` to conditions, parsing
then generating honours the precedence NOT > AND > OR with parentheses
overriding it: `"!a & b | c"` yields `(NOT(a) AND b) OR c`, `"a & b | c"`
yields `(a AND b) OR c`, and `"a & (b | c)"` yields `a AND (b OR c)`; in each
case the generated root condition is exactly the corresponding nesting of the
`and_`/`or_`/`not_` combinators on the leaf conditions. -/
theorem c1_precedence (C : Type) (ops : ConditionOps C)
    (ctx : List Char → Option C) (ca cb cc : C)
    (ha : ctx "a".toList = some ca) (hb : ctx "b".toList = some cb)
    (hc : ctx "c".toList = some cc) :
    (parse "!a & b | c".toList =
      .ok (.orNode (.andNode (.notNode (.identifierNode "a".toList))
        (.identifierNode "b".toList)) (.identifierNode "c".toList)) ∧
     (FilterTree.orNode (.andNode (.notNode (.identifierNode "a".toList))
        (.identifierNode "b".toList)) (.identifierNode "c".toList)).generate ops ctx =
      (ops.andOp (ops.notOp ca) cb).bind fun v => ops.orOp v cc) ∧
    (parse "a & b | c".toList =
      .ok (.orNode (.andNode (.identifierNode "a".toList) (.identifierNode "b".toList))
        (.identifierNode "c".toList)) ∧
     (FilterTree.orNode (.andNode (.identifierNode "a".toList) (.identifierNode "b".toList))
        (.identifierNode "c".toList)).generate ops ctx =
      (ops.andOp ca cb).bind fun v => ops.orOp v cc) ∧
    (parse "a & (b | c)".toList =
      .ok (.andNode (.identifierNode "a".toList)
        (.orNode (.identifierNode "b".toList) (.identifierNode "c".toList))) ∧
     (FilterTree.andNode (.identifierNode "a".toList)
        (.orNode (.identifierNode "b".toList) (.identifierNode "c".toList))).generate ops ctx =
      (ops.orOp cb cc).bind fun v => ops.andOp ca v) := by
  have ha' : ctx ['a'] = some ca := ha
  have hb' : ctx ['b'] = some cb := hb
  have hc' : ctx ['c'] = some cc := hc
  refine ⟨⟨by decide, ?_⟩, ⟨by decide, ?_⟩, ⟨by decide, ?_⟩⟩
  · cases h : ops.andOp (ops.notOp ca) cb <;>
      simp [FilterTree.generate, ha', hb', hc', h, Bind.bind, Except.bind]
  · cases h : ops.andOp ca cb <;>
      simp [FilterTree.generate, ha', hb', hc', h, Bind.bind, Except.bind]
  · cases h : ops.orOp cb cc <;>
      simp [FilterTree.generate, ha', hb', hc', h, Bind.bind, Except.bind]

/-- Witness for C1 at the concrete backend conditions of `threeKeyCtx`. -/
theorem c1_precedence_witness :
    parse "!a & b | c".toList =
      .ok (.orNode (.andNode (.notNode (.identifierNode "a".toList))
        (.identifierNode "b".toList)) (.identifierNode "c".toList)) ∧
    (FilterTree.orNode (.andNode (.notNode (.identifierNode "a".toList))
        (.identifierNode "b".toList)) (.identifierNode "c".toList)).generate
        condOps threeKeyCtx =
      (condOps.andOp (condOps.notOp (Cond.djangoCond (.base 1)))
        (Cond.djangoCond (.base 2))).bind
        fun v => condOps.orOp v (Cond.djangoCond (.base 3)) := by
  have h := c1_precedence Cond condOps threeKeyCtx (Cond.djangoCond (.base 1))
    (Cond.djangoCond (.base 2)) (Cond.djangoCond (.base 3))
    (by decide) (by decide) (by decide)
  exact ⟨h.1.1, h.1.2⟩

/-- Claim C2: generation is the post-order homomorphism onto the condition
algebra: an identifier returns exactly the context's condition for its name,
failing with `UnknownFilterKey` when absent; `Not` applies `not_` to the
child's result; `And`/`Or` generate left then right and combine with
`and_`/`or_`. -/
theorem c2_generate_homomorphism {C : Type} (ops : ConditionOps C)
    (ctx : List Char → Option C) (name : List Char) (c : C) (x l r : FilterTree) :
    (ctx name = some c → (FilterTree.identifierNode name).generate ops ctx = .ok c) ∧
    (ctx name = none →
      (FilterTree.identifierNode name).generate ops ctx = .error (.unknownFilterKey name)) ∧
    ((FilterTree.notNode x).generate ops ctx =
      (x.generate ops ctx).bind fun v => .ok (ops.notOp v)) ∧
    ((FilterTree.andNode l r).generate ops ctx =
      (l.generate ops ctx).bind fun a => (r.generate ops ctx).bind fun b => ops.andOp a b) ∧
    ((FilterTree.orNode l r).generate ops ctx =
      (l.generate ops ctx).bind fun a => (r.generate ops ctx).bind fun b => ops.orOp a b) := by
  refine ⟨fun h => ?_, fun h => ?_, rfl, rfl, rfl⟩
  · simp [FilterTree.generate, h]
  · simp [FilterTree.generate, h]

/-- Witness for C2 on the concrete one-key context: the known key resolves to
its stored condition, the missing key fails with `UnknownFilterKey`. -/
theorem c2_generate_homomorphism_witness :
    (FilterTree.identifierNode "k".toList).generate condOps oneKeyCtx =
      .ok (Cond.djangoCond (.base 0)) ∧
    (FilterTree.identifierNode "m".toList).generate condOps oneKeyCtx =
      .error (.unknownFilterKey "m".toList) := by
  refine ⟨?_, ?_⟩
  · exact (c2_generate_homomorphism condOps oneKeyCtx "k".toList (Cond.djangoCond (.base 0))
      (.identifierNode []) (.identifierNode []) (.identifierNode [])).1 (by decide)
  · exact (c2_generate_homomorphism condOps oneKeyCtx "m".toList (Cond.djangoCond (.base 0))
      (.identifierNode []) (.identifierNode []) (.identifierNode [])).2.1 (by decide)

end DynFilter

namespace DynFilter

/-- Counterexample to C3 as stated: with a property supporting `IS NULL`, a
definition carrying `IS NULL` together with a present value (`some [42]`) — a
cardinality violation by the repository's own `operator_requires_value` — is
accepted by `add_condition`: it does not fail with `InvalidValueCardinality`,
and the builder IS invoked (its condition is stored under the filter key). -/
theorem c3_counterexample :
    operatorRequiresValue .isNull = false ∧
    addCondition agePropImpl ageBuilder [] "myFilter".toList
      ⟨"AGE".toList, .isNull, some [42]⟩ =
      .ok [("myFilter".toList, Cond.sqlaCond (.base 7))] := by
  decide

/-- Claim C3 (amended): `add_condition` validates only that the property
exists and supports the operator; it performs no value-cardinality validation,
so for every definition whose property is found and whose operator is
supported it succeeds and delegates to the backend builder regardless of the
value's arity. -/
theorem c3_no_cardinality_validation {V : Type}
    (propImpl : List Char → Option PropertyRefImpl)
    (builder : List Char → Operator → V → Cond)
    (filters : List (List Char × Cond)) (filterKey : List Char)
    (defn : FilterDef V) (pr : PropertyRefImpl)
    (h1 : propImpl defn.ref = some pr)
    (h2 : pr.supportedOperators.contains defn.operator = true) :
    addCondition propImpl builder filters filterKey defn =
      .ok ((filterKey, builder defn.ref defn.operator defn.value) :: filters) := by
  have h2' : defn.operator ∈ pr.supportedOperators := by simpa using h2
  simp [addCondition, h1, validateOperator, h2', Bind.bind, Except.bind]

/-- Witness for the amended C3 at a concrete `IS NULL`-with-value input. -/
theorem c3_no_cardinality_validation_witness :
    addCondition agePropImpl ageBuilder [] "other".toList
      ⟨"AGE".toList, .isNull, some [1, 2, 3]⟩ =
      .ok [("other".toList, Cond.sqlaCond (.base 7))] :=
  c3_no_cardinality_validation agePropImpl ageBuilder [] "other".toList
    ⟨"AGE".toList, .isNull, some [1, 2, 3]⟩ ⟨"int".toList, [.isNull, .equals]⟩
    (by decide) (by decide)

/-- Counterexample to C4 as stated: `parse " @"` reports the invalid `@` at
position 0, but in the original (unmodified) string passed to `parse` the `@`
sits at index 1 (index 0 holds the stripped leading space). -/
theorem c4_counterexample :
    parse (' ' :: '@' :: []) = .error (.invalidCharacter '@' 0) ∧
    (' ' :: '@' :: [])[1]? = some '@' ∧ (' ' :: '@' :: [])[0]? = some ' ' := by
  decide

/-- Claim C4 (amended): for every input whose stripped form contains an
invalid character (first such character `c` after a prefix of tokenizable
characters), `parse` fails with `InvalidCharacter` reporting `c` and the
0-based index of `c` in the stripped string handed to the tokenizer — not the
index in the original string. -/
theorem c4_position_in_stripped (s : List Char) (pre rest : List Char) (c : Char)
    (hsplit : pyStrip s = pre ++ c :: rest)
    (hpre : ∀ a ∈ pre, validTokChar a = true)
    (hc : validTokChar c = false) :
    parse s = .error (.invalidCharacter c pre.length) := by
  have hnil : ¬ (pyStrip s).isEmpty = true := by
    rw [hsplit]
    simp
  have htok : tokenize (pyStrip s) = .error (.invalidCharacter c pre.length) := by
    rw [hsplit, tokenize, tokenizeAux_first_invalid pre c rest 0 [] [] hpre hc,
      Nat.zero_add]
  rw [parse, if_neg hnil, htok]
  exact rfl

/-- Witness for the amended C4: in `" a&@x"` the `@` is at index 3 of the
original string but at index 2 of the stripped string, and `parse` reports 2. -/
theorem c4_position_in_stripped_witness :
    parse " a&@x".toList = .error (.invalidCharacter '@' 2) :=
  c4_position_in_stripped " a&@x".toList ['a', '&'] ['x'] '@'
    (by decide) (by decide) (by decide)

/-- Counterexample to C5 as stated: `é` (U+00E9) is not in `[A-Za-z0-9_]`,
yet the tokenizer accepts it as an identifier character (Python's
`str.isalnum` is Unicode-aware), instead of failing with a syntax error. -/
theorem c5_counterexample :
    specAsciiIdentChar 'é' = false ∧
    tokenize ['é'] = .ok [⟨.identifier, ['é']⟩] ∧
    parse "é".toList = .ok (.identifierNode ['é']) := by
  decide

/-- Claim C5 (amended): tokenization accepts every `[A-Za-z0-9_]` character
as an identifier character, recognizes exactly `& | ! ( )` as operator
tokens, skips whitespace, and for the remaining characters branches on
Python's `isalnum` — accepting non-ASCII alphanumerics such as `é` as
identifier characters rather than rejecting them — failing with
`InvalidCharacter` only when `isalnum` is false. -/
theorem c5_character_classes :
    (∀ c : Char, specAsciiIdentChar c = true → tokenize [c] = .ok [⟨.identifier, [c]⟩]) ∧
    (tokenize ['&'] = .ok [⟨.and, ['&']⟩] ∧ tokenize ['|'] = .ok [⟨.or, ['|']⟩] ∧
     tokenize ['!'] = .ok [⟨.not, ['!']⟩] ∧ tokenize ['('] = .ok [⟨.leftParen, ['(']⟩] ∧
     tokenize [')'] = .ok [⟨.rightParen, [')']⟩]) ∧
    (∀ c : Char, pyIsSpace c = true → tokenize [c] = .ok []) ∧
    (∀ c : Char, pyIsSpace c = false → getTokenType c = none → specAsciiIdentChar c = false →
      tokenize [c] = if pyIsAlnum c = true then .ok [⟨.identifier, [c]⟩]
        else .error (.invalidCharacter c 0)) ∧
    (pyIsAlnum 'é' = true ∧ specAsciiIdentChar 'é' = false ∧
      tokenize ['é'] = .ok [⟨.identifier, ['é']⟩]) := by
  refine ⟨?_, by decide, ?_, ?_, by decide⟩
  · intro c hascii
    by_cases hu : c = '_'
    · subst hu
      decide
    · have hr : (65 ≤ c.toNat ∧ c.toNat ≤ 90) ∨ (97 ≤ c.toNat ∧ c.toNat ≤ 122) ∨
          (48 ≤ c.toNat ∧ c.toNat ≤ 57) := by
        simp only [specAsciiIdentChar, Bool.or_eq_true, Bool.and_eq_true,
          decide_eq_true_eq] at hascii
        rcases hascii with ((h | h) | h) | h
        · exact Or.inl h
        · exact Or.inr (Or.inl h)
        · exact Or.inr (Or.inr h)
        · exact absurd h hu
      have hsp : pyIsSpace c = false := by
        cases h' : pyIsSpace c
        · rfl
        · exfalso
          simp only [pyIsSpace, Bool.or_eq_true, Bool.and_eq_true, decide_eq_true_eq,
            beq_iff_eq] at h'
          omega
      have hop : getTokenType c = none := by
        have h1 : ¬ c = '&' := fun h => by subst h; revert hr; decide
        have h2 : ¬ c = '|' := fun h => by subst h; revert hr; decide
        have h3 : ¬ c = '!' := fun h => by subst h; revert hr; decide
        have h4 : ¬ c = '(' := fun h => by subst h; revert hr; decide
        have h5 : ¬ c = ')' := fun h => by subst h; revert hr; decide
        rw [getTokenType, if_neg h1, if_neg h2, if_neg h3, if_neg h4, if_neg h5]
      have hal : pyIsAlnum c = true := by
        simp only [pyIsAlnum, Bool.or_eq_true, Bool.and_eq_true, decide_eq_true_eq,
          beq_iff_eq]
        omega
      simp [tokenize, tokenizeAux, hsp, hop, hal, flushIdent]
  · intro c hsp
    simp [tokenize, tokenizeAux, hsp, flushIdent]
  · intro c hsp hop hna
    have hus : decide (c = '_') = false := by
      simp only [specAsciiIdentChar, Bool.or_eq_false_iff] at hna
      exact hna.2
    by_cases hal : pyIsAlnum c = true
    · rw [if_pos hal]
      simp [tokenize, tokenizeAux, hsp, hop, hal, flushIdent]
    · have half : pyIsAlnum c = false := by
        cases h' : pyIsAlnum c
        · rfl
        · exact absurd h' hal
      rw [if_neg hal]
      simp [tokenize, tokenizeAux, hsp, hop, half, hus]

/-- Witness for the amended C5 on concrete characters of each class. -/
theorem c5_character_classes_witness :
    tokenize ['x'] = .ok [⟨.identifier, ['x']⟩] ∧
    tokenize [' '] = .ok [] ∧
    tokenize ['µ'] = .ok [⟨.identifier, ['µ']⟩] ∧
    tokenize ['¿'] = .error (.invalidCharacter '¿' 0) := by
  have h := c5_character_classes
  refine ⟨h.1 'x' (by decide), h.2.2.1 ' ' (by decide), ?_, ?_⟩
  · have h4 := h.2.2.2.1 'µ' (by decide) (by decide) (by decide)
    rw [if_pos (by decide)] at h4
    exact h4
  · have h4 := h.2.2.2.1 '¿' (by decide) (by decide) (by decide)
    rw [if_neg (by decide)] at h4
    exact h4

end DynFilter

namespace DynFilter

/-- Claim C6: every operator's canonical symbol parses back to it; parsing is
case-insensitive and whitespace-tolerant (every string whose trimmed,
uppercased form equals an operator's symbol parses to that operator); and a
string matching no symbol yields `none` rather than an error (stated for
ASCII strings, where the embedded `upper` table is exact). -/
theorem c6_operator_round_trip :
    (∀ op : Operator, parseOperator op.symbol = some op) ∧
    (∀ (op : Operator) (s : List Char),
      (pyStrip s).map pyToUpper = op.symbol → parseOperator s = some op) ∧
    (∀ s : List Char, (∀ c ∈ s, c.toNat < 128) →
      (∀ op : Operator, (pyStrip s).map pyToUpper ≠ op.symbol) → parseOperator s = none) :=
  ⟨by decide, fun op s h => parseOperator_of_norm op s h,
    fun s h1 h2 => parseOperator_none_of_no_match s h1 h2⟩

/-- Witness for C6 at concrete strings. -/
theorem c6_operator_round_trip_witness :
    parseOperator "NOT BETWEEN".toList = some .notBetween ∧
    parseOperator " like ".toList = some .like ∧
    parseOperator "zzz".toList = none := by
  have h := c6_operator_round_trip
  exact ⟨h.1 .notBetween, h.2.1 .like " like ".toList (by decide),
    h.2.2 "zzz".toList (by decide) (by decide)⟩

/-- Claim C7: every token sequence with unbalanced parentheses makes the
infix-to-postfix conversion fail with `MismatchedParentheses` (a `)` without a
matching `(` empties the operator stack; a leftover `(` is caught by the final
drain); in particular both `"(a & b"` and `"a & b)"` fail that way. -/
theorem c7_mismatched_parentheses :
    (∀ ts : List Token, parensBalanced ts = false →
      shuntingYard ts = .error .mismatchedParens) ∧
    parse "(a & b".toList = .error .mismatchedParens ∧
    parse "a & b)".toList = .error .mismatchedParens := by
  refine ⟨fun ts h => ?_, by decide, by decide⟩
  rw [shuntingYard]
  exact shuntingYardAux_unbalanced ts [] [] h

/-- Witness for C7 at a concrete unbalanced token sequence. -/
theorem c7_mismatched_parentheses_witness :
    shuntingYard [⟨.leftParen, ['(']⟩] = .error .mismatchedParens :=
  c7_mismatched_parentheses.1 [⟨.leftParen, ['(']⟩] (by decide)

/-- Claim C8: during postfix-to-tree construction a NOT on an empty stack
fails with the missing-operand error for NOT, an AND/OR with fewer than two
stacked operands fails with the corresponding missing-operand error, and the
final stack must hold exactly one node — which is returned as the root —
otherwise the parse fails with the malformed-expression error (e.g. two
adjacent identifiers, `"a b"`). -/
theorem c8_operand_starvation :
    (∀ v : List Char, buildStep [] ⟨.not, v⟩ = .error .notWithoutOperand) ∧
    (∀ (stack : List FilterTree) (v : List Char), stack.length < 2 →
      buildStep stack ⟨.and, v⟩ = .error .andRequiresTwoOperands) ∧
    (∀ (stack : List FilterTree) (v : List Char), stack.length < 2 →
      buildStep stack ⟨.or, v⟩ = .error .orRequiresTwoOperands) ∧
    (∀ (post : List Token) (stack : List FilterTree),
      List.foldlM buildStep [] post = .ok stack →
      buildExpressionTree post =
        (match stack with | [x] => .ok x | _ => .error .malformedSyntax)) ∧
    parse "a b".toList = .error .malformedSyntax := by
  refine ⟨fun v => rfl, ?_, ?_, ?_, by decide⟩
  · intro stack v h
    rcases stack with _ | ⟨a, _ | ⟨b, rest⟩⟩
    · rfl
    · rfl
    · exfalso
      simp only [List.length_cons] at h
      omega
  · intro stack v h
    rcases stack with _ | ⟨a, _ | ⟨b, rest⟩⟩
    · rfl
    · rfl
    · exfalso
      simp only [List.length_cons] at h
      omega
  · intro post stack h
    rw [buildExpressionTree, h]
    exact rfl

/-- Witness for C8 at concrete stacks and token lists. -/
theorem c8_operand_starvation_witness :
    buildStep [] ⟨.and, ['&']⟩ = .error .andRequiresTwoOperands ∧
    buildExpressionTree [⟨.identifier, ['a']⟩] = .ok (.identifierNode ['a']) := by
  have h := c8_operand_starvation
  refine ⟨h.2.1 [] ['&'] (by decide), ?_⟩
  have h4 := h.2.2.2.1 [⟨.identifier, ['a']⟩] [.identifierNode ['a']] (by decide)
  exact h4

/-- Claim C9: the `and_`/`or_` combinators of the two concrete condition
variants fail with `IncompatibleConditionKind` exactly when their operands
come from different backends, and return a new condition of the shared
variant otherwise; `not_` never fails and preserves the variant. -/
theorem c9_condition_combinators :
    (∀ a b, (Cond.djangoCond a).and_ (Cond.djangoCond b) = .ok (Cond.djangoCond (.qAnd a b))) ∧
    (∀ a b, (Cond.sqlaCond a).and_ (Cond.sqlaCond b) = .ok (Cond.sqlaCond (.wAnd a b))) ∧
    (∀ a b, (Cond.djangoCond a).and_ (Cond.sqlaCond b) = .error .incompatibleConditionKind) ∧
    (∀ a b, (Cond.sqlaCond a).and_ (Cond.djangoCond b) = .error .incompatibleConditionKind) ∧
    (∀ a b, (Cond.djangoCond a).or_ (Cond.djangoCond b) = .ok (Cond.djangoCond (.qOr a b))) ∧
    (∀ a b, (Cond.sqlaCond a).or_ (Cond.sqlaCond b) = .ok (Cond.sqlaCond (.wOr a b))) ∧
    (∀ a b, (Cond.djangoCond a).or_ (Cond.sqlaCond b) = .error .incompatibleConditionKind) ∧
    (∀ a b, (Cond.sqlaCond a).or_ (Cond.djangoCond b) = .error .incompatibleConditionKind) ∧
    (∀ a, (Cond.djangoCond a).not_ = Cond.djangoCond (.qNot a)) ∧
    (∀ a, (Cond.sqlaCond a).not_ = Cond.sqlaCond (.wNot a)) ∧
    (∀ x y : Cond, (∃ z, x.and_ y = .ok z ∧ z.kind = x.kind) ↔ x.kind = y.kind) ∧
    (∀ x y : Cond, (∃ z, x.or_ y = .ok z ∧ z.kind = x.kind) ↔ x.kind = y.kind) ∧
    (∀ x : Cond, x.not_.kind = x.kind) := by
  refine ⟨fun a b => rfl, fun a b => rfl, fun a b => rfl, fun a b => rfl,
    fun a b => rfl, fun a b => rfl, fun a b => rfl, fun a b => rfl,
    fun a => rfl, fun a => rfl, ?_, ?_, ?_⟩
  · intro x y
    cases x <;> cases y <;> simp [Cond.and_, Cond.kind]
  · intro x y
    cases x <;> cases y <;> simp [Cond.or_, Cond.kind]
  · intro x
    cases x <;> rfl

/-- Claim C10: every input passing the blank check tokenizes (after the
strip) either to an error or to a non-empty token list, so the
"Empty expression" branch of the token-to-tree phase is unreachable through
`parse`; `parse` ends in the blank-input error exactly on blank input, and
otherwise in a tokenizer/compiler error or a well-formed tree. -/
theorem c10_parse_outcomes (s : List Char) :
    parse s ≠ .error .emptyExpr ∧
    (parse s = .error .emptyInput ↔ pyStrip s = []) ∧
    (pyStrip s ≠ [] →
      (∃ c i, tokenize (pyStrip s) = .error (.invalidCharacter c i)) ∨
      ∃ ts, tokenize (pyStrip s) = .ok ts ∧ ts ≠ []) := by
  by_cases hemp : (pyStrip s).isEmpty
  · have hnil : pyStrip s = [] := List.isEmpty_iff.mp hemp
    have hp : parse s = .error .emptyInput := by rw [parse, if_pos hemp]
    refine ⟨?_, ⟨fun _ => hnil, fun _ => hp⟩, fun hne => absurd hnil hne⟩
    rw [hp]
    intro hcon
    exact PyErr.noConfusion (Except.error.inj hcon)
  · have hnil : pyStrip s ≠ [] := by simpa [List.isEmpty_iff] using hemp
    have hp : parse s = (do
        let tokens ← tokenize (pyStrip s)
        parseTokens tokens) := by
      rw [parse, if_neg hemp]
    cases htok : tokenize (pyStrip s) with
    | error e =>
      obtain ⟨c, j, rfl⟩ := tokenizeAux_error_shape _ _ _ _ _ htok
      have hp2 : parse s = .error (.invalidCharacter c j) := by
        rw [hp, htok]
        exact rfl
      refine ⟨?_, ⟨?_, fun hsnil => absurd hsnil hnil⟩, fun _ => Or.inl ⟨c, j, rfl⟩⟩
      · rw [hp2]
        intro hcon
        exact PyErr.noConfusion (Except.error.inj hcon)
      · intro hcon
        rw [hp2] at hcon
        exact PyErr.noConfusion (Except.error.inj hcon)
    | ok ts =>
      have hts : ts ≠ [] :=
        tokenizeAux_ok_ne_nil _ _ _ _ _ htok (Or.inl (stripHasNonSpace s hnil))
      have hp2 : parse s = parseTokens ts := by
        rw [hp, htok]
        exact rfl
      have hne2 : ¬ ts.isEmpty = true := by simpa [List.isEmpty_iff] using hts
      have hpt : parseTokens ts = (do
          let post ← shuntingYard ts
          buildExpressionTree post) := by
        rw [parseTokens, if_neg hne2]
      cases hsy : shuntingYard ts with
      | error e =>
        have he : e = .mismatchedParens := shuntingYardAux_error_shape ts [] [] e hsy
        subst he
        have hp3 : parse s = .error .mismatchedParens := by
          rw [hp2, hpt, hsy]
          exact rfl
        refine ⟨?_, ⟨?_, fun hsnil => absurd hsnil hnil⟩, fun _ => Or.inr ⟨ts, rfl, hts⟩⟩
        · rw [hp3]
          intro hcon
          exact PyErr.noConfusion (Except.error.inj hcon)
        · intro hcon
          rw [hp3] at hcon
          exact PyErr.noConfusion (Except.error.inj hcon)
      | ok post =>
        cases hbt : buildExpressionTree post with
        | error e =>
          have he := buildExpressionTree_error_shape post e hbt
          have hp3 : parse s = .error e := by
            rw [hp2, hpt, hsy]
            exact hbt
          refine ⟨?_, ⟨?_, fun hsnil => absurd hsnil hnil⟩, fun _ => Or.inr ⟨ts, rfl, hts⟩⟩
          · rw [hp3]
            intro hcon
            have hinj := Except.error.inj hcon
            rcases he with rfl | rfl | rfl | rfl <;> cases hinj
          · intro hcon
            rw [hp3] at hcon
            have hinj := Except.error.inj hcon
            rcases he with rfl | rfl | rfl | rfl <;> cases hinj
        | ok tree =>
          have hp3 : parse s = .ok tree := by
            rw [hp2, hpt, hsy]
            exact hbt
          refine ⟨?_, ⟨?_, fun hsnil => absurd hsnil hnil⟩, fun _ => Or.inr ⟨ts, rfl, hts⟩⟩
          · rw [hp3]
            intro hcon
            cases hcon
          · intro hcon
            rw [hp3] at hcon
            cases hcon

/-- Witness for C10 at a concrete non-blank input. -/
theorem c10_parse_outcomes_witness :
    parse "x".toList ≠ .error .emptyExpr ∧
    ((∃ c i, tokenize (pyStrip "x".toList) = .error (.invalidCharacter c i)) ∨
      ∃ ts, tokenize (pyStrip "x".toList) = .ok ts ∧ ts ≠ []) := by
  have h := c10_parse_outcomes "x".toList
  exact ⟨h.1, h.2.2 (by decide)⟩

end DynFilter
